import Mathlib

/-!
Shallow embedding of the plan-execution engine of `app/executor.py` (and the
schema validator of `app/schemas.py`), together with theorems settling the
specification claims about it.

Conventions used throughout:
* Python strings are Lean `String`s; Python `None`-able strings are `Option String`.
* Python's truthiness on strings (`if not s`) is tested as `s = ""` / `none`.
* Machine-level details that the claims do not touch (the live Playwright
  page, the filesystem) are modelled as oracles supplying the outcome of each
  browser call; the engine's observable behaviour is recorded as a list of
  events.
* Literal brace characters in strings are written with `\x7b` / `\x7d`
  escapes, and apostrophes with `\x27`.
-/

namespace WebExec

/-! ### Basic string helpers (models of the Python primitives used) -/

/-- Substring test on character lists: `containsList pat s` models the Python
expression `pat in s` on strings (substring containment; the empty pattern is
contained in everything). -/
def containsList (pat : List Char) : List Char → Bool
  | [] => pat.isPrefixOf []
  | c :: rest => pat.isPrefixOf (c :: rest) || containsList pat rest

/-- `pat in s` for Lean strings. -/
def containsStr (s pat : String) : Bool := containsList pat.data s.data

/-- One rewriting pass of Python's `str.replace`, fuel-bounded so that it is
structurally recursive and kernel-evaluable.  Scans left to right; on a match
of `pat` (required non-empty, as at every use site here) emits `repl` and
continues after the matched occurrence, exactly like CPython's non-overlapping
left-to-right replacement.  `fuel` is instantiated with the length of the
subject string, an upper bound on the number of steps. -/
def replaceAllFuel (pat repl : List Char) : Nat → List Char → List Char
  | 0, s => s
  | fuel + 1, s =>
    if pat.isPrefixOf s ∧ pat ≠ [] then
      repl ++ replaceAllFuel pat repl fuel (s.drop pat.length)
    else
      match s with
      | [] => []
      | c :: rest => c :: replaceAllFuel pat repl fuel rest

/-- Python `s.replace(pat, repl)` for the non-empty patterns used by the
executor. -/
def pyReplace (s pat repl : String) : String :=
  ⟨replaceAllFuel pat.data repl.data s.data.length s.data⟩

/-- Python's `f"{n:02d}"` formatting of a step number. -/
def pad2 (n : Nat) : String :=
  if n < 10 then "0" ++ toString n else toString n

/-- Decimal-digit run to a number, `none` when empty or non-digit. -/
def digitsToNat (ds : List Char) : Option Nat :=
  if ds ≠ [] ∧ ds.all Char.isDigit then
    some (ds.foldl (fun acc c => acc * 10 + (c.toNat - 48)) 0)
  else none

/-- Python whitespace stripped by `int(...)`. -/
def isPySpace (c : Char) : Bool :=
  c = ' ' || c = Char.ofNat 9 || c = Char.ofNat 10 || c = Char.ofNat 13

/-- Model of Python's `int(s)` on strings: optional surrounding whitespace, an
optional sign, then a non-empty digit run; `none` models the `ValueError`
path.  (CPython additionally accepts underscore digit separators, which no
input in this development exercises.) -/
def pyInt (s : String) : Option Int :=
  let t := ((s.data.dropWhile isPySpace).reverse.dropWhile isPySpace).reverse
  match t with
  | '+' :: ds => (digitsToNat ds).map Int.ofNat
  | '-' :: ds => (digitsToNat ds).map (fun n => -(n : Int))
  | ds => (digitsToNat ds).map Int.ofNat

/-- Python `s.lower()` (ASCII case mapping, which covers the selector and
hostname alphabets in use). -/
def pyLower (s : String) : String := ⟨s.data.map Char.toLower⟩

/-- Python `s.endswith(suffix)`. -/
def pyEndsWith (s suffix : String) : Bool := suffix.data.isSuffixOf s.data

/-- Python `s.startswith(prefixStr)`. -/
def pyStartsWith (s p : String) : Bool := p.data.isPrefixOf s.data

/-- Python `value or default` for an optional string (`None` and `""` are
falsy). -/
def pyOrStr (v : Option String) (dflt : String) : String :=
  match v with
  | none => dflt
  | some s => if s = "" then dflt else s

/-- Python `value or default` for an optional integer (`None` and `0` are
falsy). -/
def pyOrInt (v : Option Int) (dflt : Int) : Int :=
  match v with
  | none => dflt
  | some n => if n = 0 then dflt else n

/-! ### `_mask` (executor.py lines 35-38) -/

/-- The opaque masking symbol `•` (U+2022). -/
def bulletChar : Char := Char.ofNat 8226

/-- `_mask` from `executor.py`: `re.sub(r".", "•", s)` guarded by a falsy
check.  The regex metacharacter `.` matches every character except the newline,
so newlines pass through unmasked. -/
def _mask (s : String) : String :=
  if s = "" then s
  else ⟨s.data.map (fun c => if c = Char.ofNat 10 then c else bulletChar)⟩

/-! ### `_inject_credentials` (executor.py lines 85-93) -/

/-- The loop body of `_inject_credentials`: one credential entry applied to
the current value (`placeholder = f"{{{{{key}}}}}"`, guarded textual
replacement). -/
def injectStep (v : String) (kv : String × String) : String :=
  let placeholder := "\x7b\x7b" ++ kv.1 ++ "\x7d\x7d"
  if containsStr v placeholder then pyReplace v placeholder kv.2 else v

/-- `_inject_credentials` from `executor.py`: for each credential entry, in
map iteration order, replaces every occurrence of `{{KEY}}` in the current
string by the entry's value.  The credential map is modelled as an ordered
association list, matching Python's insertion-ordered `dict.items()`. -/
def _inject_credentials (value : String) (credentials : List (String × String)) : String :=
  if value = "" then value
  else credentials.foldl injectStep value

/-- First-match lookup in an ordered association list. -/
def lookupStr (creds : List (String × String)) (k : String) : Option String :=
  match creds with
  | [] => none
  | kv :: rest => if kv.1 = k then some kv.2 else lookupStr rest k

/-- Modelled from the spec: the claimed behaviour of `injectCredentials` —
a single simultaneous left-to-right pass over the value that replaces every
well-formed placeholder token `\x7b\x7bNAME\x7d\x7d` by the map's value for
`NAME` when `NAME` is a key, and leaves tokens with unknown names untouched.
This definition follows the spec's words, for comparison with the source
translation `_inject_credentials`. -/
def specSubstFuel (creds : List (String × String)) : Nat → List Char → List Char
  | 0, s => s
  | _ + 1, [] => []
  | fuel + 1, c1 :: rest =>
    match rest with
    | c2 :: r =>
      if c1 = Char.ofNat 123 ∧ c2 = Char.ofNat 123 then
        let name := r.takeWhile (fun c => c ≠ Char.ofNat 123 ∧ c ≠ Char.ofNat 125)
        match r.drop name.length with
        | d1 :: d2 :: r2 =>
          if d1 = Char.ofNat 125 ∧ d2 = Char.ofNat 125 ∧ name ≠ [] then
            match lookupStr creds ⟨name⟩ with
            | some v => v.data ++ specSubstFuel creds fuel r2
            | none => c1 :: c2 :: (name ++ d1 :: d2 :: specSubstFuel creds fuel r2)
          else c1 :: specSubstFuel creds fuel rest
        | _ => c1 :: specSubstFuel creds fuel rest
      else c1 :: specSubstFuel creds fuel rest
    | [] => [c1]

/-- Modelled from the spec: simultaneous single-pass placeholder substitution
(see `specSubstFuel`). -/
def injectCredentialsSpec (value : String) (creds : List (String × String)) : String :=
  ⟨specSubstFuel creds value.data.length value.data⟩

/-! ### `_domain_allowed` (executor.py lines 26-33) -/

/-- `_domain_allowed` from `executor.py`.  `parse` models
`urllib.parse.urlparse(url).hostname`: `.error` when hostname extraction
raises (the `except` path), `.ok none` when the parsed URL has no hostname
(`parsed.hostname is None`), `.ok (some h)` otherwise.  The extracted
hostname is lowercased and tested for a suffix match against each allowlist
entry. -/
def _domain_allowed (parse : String → Except String (Option String))
    (allowed : List String) (url : String) : Bool :=
  match parse url with
  | .error _ => false
  | .ok h =>
    let host := pyLower (h.getD "")
    allowed.any (fun a => pyEndsWith host a)

/-! ### `_retry_action` (executor.py lines 95-109) -/

/-- The two classes of Playwright failure the retry loop distinguishes:
`PlaywrightTimeoutError` (retryable) and every other exception
(propagated immediately). -/
inductive PwError : Type
  | timeout (msg : String)
  | other (msg : String)
  deriving DecidableEq, Repr

/-- Body of `_retry_action`'s `for attempt in range(max_retries)` loop,
recursing on the number of remaining iterations (`attempt + remaining =
max_retries` at every call from the entry point).  The operation is modelled
as a function from the 0-indexed attempt number to that invocation's outcome.
Returns the final outcome (`none` models Python's implicit `return None` when
`max_retries = 0` and the loop body never runs), the number of invocations
made, and the list of back-off sleep durations in milliseconds
(`delay_ms * 2 ** attempt`, matching `wait_time` of the source up to the
second/millisecond unit change). -/
def retryFrom {α : Type} (op : Nat → Except PwError α) (maxr delay : Nat) :
    Nat → Nat → Option (Except PwError α) × Nat × List Nat
  | _, 0 => (none, 0, [])
  | attempt, r + 1 =>
    match op attempt with
    | .ok v => (some (.ok v), 1, [])
    | .error (.timeout m) =>
      if attempt = maxr - 1 then (some (.error (.timeout m)), 1, [])
      else
        let rest := retryFrom op maxr delay (attempt + 1) r
        (rest.1, rest.2.1 + 1, delay * 2 ^ attempt :: rest.2.2)
    | .error (.other m) => (some (.error (.other m)), 1, [])

/-- `_retry_action` from `executor.py`: result, invocation count, and sleep
schedule. -/
def _retry_action {α : Type} (op : Nat → Except PwError α) (maxr delay : Nat) :
    Option (Except PwError α) × Nat × List Nat :=
  retryFrom op maxr delay 0 maxr

/-! ### `_get_robust_locator` (executor.py lines 40-83) -/

/-- The concrete Playwright locator constructions the resolver can return,
kept symbolic (the live page is outside the model). -/
inductive LocatorStrategy : Type
  | workLogById
  | workLogFallback
  | linkHasText (text : String)
  | roleButtonExact (name : String)
  | roleButtonFuzzy (name : String)
  | textSubstring (text : String)
  | labelExact (text : String)
  | textExact (text : String)
  | css (selector : String)
  deriving DecidableEq, Repr

/-- The page state the resolver consults: the count of `#P1_WORK_LOG`
elements, and for the button branch the outcome of the guarded
`get_by_role(..., exact=True)` probe (`.error` models the `except: pass`
path, `.ok c` the returned locator's `count()`). -/
structure PageOracle : Type where
  workLogCount : Nat
  buttonExact : String → Except String Nat

/-- A regex word character (`\w`) over the ASCII range the selector dialect
uses. -/
def isWordChar (c : Char) : Bool := c.isAlphanum || c = '_'

/-- One of the two quote characters accepted by the selector regexes. -/
def isQuoteChar (c : Char) : Bool := c = Char.ofNat 39 || c = Char.ofNat 34

/-- Case-insensitive literal-prefix test (for the `re.IGNORECASE` flag on the
contains pattern). -/
def ciPrefix (pat : List Char) (s : List Char) : Bool :=
  pat.isPrefixOf ((s.take pat.length).map Char.toLower)

/-- Attempt to match `\w+:contains\((['\"])([^'\"]+)['\"]\)` at the head of
`s` (the greedy `\w+` run must end exactly where `:contains(` begins, since
`:` is not a word character, so no backtracking arises).  Returns the tag and
the quoted text. -/
def matchContainsAt (s : List Char) : Option (String × String) :=
  let run := s.takeWhile isWordChar
  if run = [] then none
  else
    let rest := s.drop run.length
    if ciPrefix ":contains(".data rest then
      match rest.drop 10 with
      | q :: r3 =>
        if isQuoteChar q then
          let content := r3.takeWhile (fun c => !isQuoteChar c)
          if content = [] then none
          else
            match r3.drop content.length with
            | q2 :: ')' :: _ =>
              if isQuoteChar q2 then some (⟨run⟩, ⟨content⟩) else none
            | _ => none
        else none
      | [] => none
    else none

/-- `re.search` of the contains pattern: leftmost start position wins. -/
def findContains : List Char → Option (String × String)
  | [] => none
  | c :: rest =>
    match matchContainsAt (c :: rest) with
    | some r => some r
    | none => findContains rest

/-- Attempt to match `\[label=(['\"])([^'\"]+)['\"]\]` at the head of `s`
(the leading `\w*` of the source pattern is nullable and grouped with
nothing, so the search reduces to finding this literal-bracket form). -/
def matchLabelAt (s : List Char) : Option String :=
  match s with
  | '[' :: 'l' :: 'a' :: 'b' :: 'e' :: 'l' :: '=' :: q :: r =>
    if isQuoteChar q then
      let content := r.takeWhile (fun c => !isQuoteChar c)
      if content = [] then none
      else
        match r.drop content.length with
        | q2 :: ']' :: _ => if isQuoteChar q2 then some ⟨content⟩ else none
        | _ => none
    else none
  | _ => none

/-- `re.search` of the label pattern. -/
def findLabel : List Char → Option String
  | [] => none
  | c :: rest =>
    match matchLabelAt (c :: rest) with
    | some r => some r
    | none => findLabel rest

/-- The fully anchored `^text=(['\"])([^'\"]+)['\"]$` pattern. -/
def matchTextExact (s : List Char) : Option String :=
  match s with
  | 't' :: 'e' :: 'x' :: 't' :: '=' :: q :: r =>
    if isQuoteChar q then
      let content := r.takeWhile (fun c => !isQuoteChar c)
      if content = [] then none
      else
        match r.drop content.length with
        | [q2] => if isQuoteChar q2 then some ⟨content⟩ else none
        | _ => none
    else none
  | _ => none

/-- The textarea escape-hatch test of lines 42-45: the lowercased selector is
one of the two worklog forms or starts with `textarea`. -/
def textareaCond (selector : String) : Bool :=
  let low := pyLower selector
  low = "textarea[label=\x27worklog\x27]" || low = "textarea[label=\x27work log\x27]" ||
    pyStartsWith low "textarea"

/-- `_get_robust_locator` from `executor.py`: ordered strategy dispatch.
The page is consulted only for the worklog count and the guarded exact
button-role probe. -/
def _get_robust_locator (page : PageOracle) (selector : String) : LocatorStrategy :=
  if textareaCond selector then
    if page.workLogCount = 1 then .workLogById else .workLogFallback
  else
    match findContains selector.data with
    | some (tag, text) =>
      let element_type := pyLower tag
      if element_type = "a" then .linkHasText text
      else if element_type = "button" then
        match page.buttonExact text with
        | .ok c => if c > 0 then .roleButtonExact text else .roleButtonFuzzy text
        | .error _ => .roleButtonFuzzy text
      else .textSubstring text
    | none =>
      match findLabel selector.data with
      | some lbl => .labelExact lbl
      | none =>
        match matchTextExact selector.data with
        | some t => .textExact t
        | none => .css selector

/-! ### Schema validation (`schemas.py`) -/

/-- A value accepted for `Action.value` by the pydantic model
`Optional[Union[str, int]]` before the `mode='before'` validator runs. -/
inductive PyValue : Type
  | pyNone
  | pyStr (s : String)
  | pyInt (n : Int)
  deriving DecidableEq, Repr

/-- `convert_value_to_string` from `schemas.py`: the `mode='before'` field
validator, converting an integer value to its decimal string (`str(v)`)
and passing everything else through. -/
def convert_value_to_string : PyValue → PyValue
  | .pyInt n => .pyStr (toString n)
  | v => v

/-- The three `isinstance` branches of the wait handler's value dispatch
(executor.py lines 157-168). -/
inductive WaitBranch : Type
  | intBranch
  | strBranch
  | noneBranch
  deriving DecidableEq, Repr

/-- Which branch of the wait handler a stored `Action.value` selects:
`action.value is None` takes the else branch, otherwise the
`isinstance(action.value, int)` / `isinstance(action.value, str)` chain. -/
def waitBranchOf : PyValue → WaitBranch
  | .pyNone => .noneBranch
  | .pyInt _ => .intBranch
  | .pyStr _ => .strBranch

/-! ### The execution engine `run_plan` (executor.py lines 111-281)

The engine is modelled per step: an `Action` (post-schema-validation, so
`value` is an optional string — `schemas.py` guarantees no integer survives
validation, see the C10 theorem), a `StepOracle` supplying the outcome of
every browser call the step makes, and a `Config` carrying the values read
from `config.py`.  The observable behaviour is a list of events.  Browser
sub-calls of a multi-call retried operation (fill/select/click bodies) are
recorded only for attempts that complete successfully; a failing attempt
contributes its outcome but not a partial effect prefix.  The per-step
`logger.info` banner and debug log lines are not modelled; the fill handler's
value-bearing log line (line 189) is. -/

/-- The step-level faults of the executor: `ValueError` (missing field /
domain denial), `AssertionError` (title mismatch), propagated Playwright
timeout, and any other propagated exception. -/
inductive Fault : Type
  | valueError (msg : String)
  | assertionError (msg : String)
  | pwTimeout (msg : String)
  | pwOther (msg : String)
  deriving DecidableEq, Repr

/-- Mapping a propagated Playwright error to the step fault it becomes. -/
def toFault : PwError → Fault
  | .timeout m => .pwTimeout m
  | .other m => .pwOther m

/-- Observable events of a step, in program order. -/
inductive Ev : Type
  | logLine (s : String)
  | resolved (loc : LocatorStrategy)
  | gotoCall (url : String)
  | screenshot (name : String)
  | focusEl
  | fillVal (v : String)
  | typeVal (v : String)
  | pressKey (k : String)
  | sleepMs (ms : Nat)
  | waitTimeout (ms : Int)
  | waitForVisible
  | optionClick
  | clickEl
  | selectOpt (label : String)
  | titleRead
  deriving DecidableEq, Repr

/-- The configuration the engine reads from `config.py`, plus the URL-parse
oracle for the Domain Guard. -/
structure Config : Type where
  allowed : List String
  parseURL : String → Except String (Option String)
  maxRetries : Nat
  retryDelayMs : Nat
  autocompleteWaitMs : Int
  screenshotOnFailure : Bool

/-- Outcomes of the browser calls one step can make.  `opRes` is the outcome
of the step's retried operation on each 0-indexed attempt; `probe*` model the
two `get_attribute` calls of the fill capability probe (`probeThrows` the
`except` path); `optionCheckThrows` / `optionVisible` the autocomplete option
lookup; `selectHidden` the `locator.is_hidden()` test of the select handler;
`pressRes` the un-retried `keyboard.press`; `title` the `page.title()`
result. -/
structure StepOracle : Type where
  page : PageOracle
  opRes : Nat → Except PwError Unit
  probeThrows : Bool
  probeRole : Option String
  probeReadonly : Option String
  optionCheckThrows : Bool
  optionVisible : Bool
  selectHidden : Bool
  pressRes : Except PwError Unit
  title : String

/-- A schema-validated action (`value` already string-normalised). -/
structure Action : Type where
  type : String
  selector : Option String := none
  value : Option String := none
  timeout_ms : Option Int := some 30000
  deriving DecidableEq, Repr

/-- `_retry_action` as the engine uses it, recording events: `evsOf` gives
the events an attempt contributes as a function of its outcome, and each
back-off sleep is recorded. Same loop structure as `retryFrom`. -/
def retryRunFrom (op : Nat → Except PwError Unit) (evsOf : Except PwError Unit → List Ev)
    (maxr delay : Nat) : Nat → Nat → Except Fault Unit × List Ev
  | _, 0 => (.ok (), [])
  | attempt, r + 1 =>
    match op attempt with
    | .ok _ => (.ok (), evsOf (op attempt))
    | .error (.timeout m) =>
      if attempt = maxr - 1 then (.error (.pwTimeout m), evsOf (op attempt))
      else
        let rest := retryRunFrom op evsOf maxr delay (attempt + 1) r
        (rest.1, evsOf (op attempt) ++ .sleepMs (delay * 2 ^ attempt) :: rest.2)
    | .error (.other m) => (.error (.pwOther m), evsOf (op attempt))

/-- Event-recording retry entry point. -/
def retryRun (op : Nat → Except PwError Unit) (evsOf : Except PwError Unit → List Ev)
    (maxr delay : Nat) : Except Fault Unit × List Ev :=
  retryRunFrom op evsOf maxr delay 0 maxr

/-- The shared tail of every handler that screenshots on success: prefix
events, then the retried operation's events, then — only on success — the
success screenshot; the operation's outcome is passed through. -/
def stepFinish (pre : List Ev) (shot : String) (res : Except Fault Unit × List Ev) :
    Except Fault Unit × List Ev :=
  match res.1 with
  | .ok _ => (.ok (), pre ++ res.2 ++ [.screenshot shot])
  | .error f => (.error f, pre ++ res.2)

/-- The navigate handler (lines 147-155). -/
def navigateStep (cfg : Config) (orc : StepOracle) (n : Nat) (a : Action) :
    Except Fault Unit × List Ev :=
  match a.value with
  | none => (.error (.valueError "Navigate action requires a URL value"), [])
  | some url =>
    if url = "" then (.error (.valueError "Navigate action requires a URL value"), [])
    else if ¬ _domain_allowed cfg.parseURL cfg.allowed url then
      (.error (.valueError ("Domain not allowed: " ++ url)), [])
    else
      stepFinish [] ("step_" ++ pad2 n ++ "_navigate.png")
        (retryRun orc.opRes (fun _ => [.gotoCall url]) cfg.maxRetries cfg.retryDelayMs)

/-- The wait handler (lines 156-171), on a validated (string) value. -/
def waitStep (n : Nat) (a : Action) : Except Fault Unit × List Ev :=
  let wait_ms : Int :=
    match a.value with
    | none => pyOrInt a.timeout_ms 2000
    | some s =>
      match pyInt s with
      | some v => v
      | none => pyOrInt a.timeout_ms 2000
  (.ok (), [.waitTimeout wait_ms, .screenshot ("step_" ++ pad2 n ++ "_wait.png")])

/-- The wait_for_selector handler (lines 172-181): no success screenshot. -/
def waitForSelectorStep (cfg : Config) (orc : StepOracle) (a : Action) :
    Except Fault Unit × List Ev :=
  let sel := pyOrStr a.value (a.selector.getD "")
  if sel = "" then (.error (.valueError "wait_for_selector requires a selector"), [])
  else
    let loc := _get_robust_locator orc.page sel
    let res := retryRun orc.opRes (fun _ => [.waitForVisible]) cfg.maxRetries cfg.retryDelayMs
    (res.1, .resolved loc :: res.2)

/-- The fill capability probe (lines 192-197): `role == "combobox" or
readonly is not None`, with the `except` path reporting a plain field. -/
def fillIsCombobox (orc : StepOracle) : Bool :=
  if orc.probeThrows then false
  else orc.probeRole.getD "" = "combobox" || orc.probeReadonly ≠ none

/-- The browser effects of one successful `fill_action` attempt (lines
191-214): capability probe, focus, then either the combobox-like
clear/type/confirm path or the plain wait-and-fill path. -/
def fillAttemptEvs (cfg : Config) (orc : StepOracle) (value : String) : List Ev :=
  if fillIsCombobox orc then
    [.focusEl, .fillVal "", .typeVal value, .waitTimeout cfg.autocompleteWaitMs] ++
      (if orc.optionCheckThrows then [.pressKey "Enter"]
       else if orc.optionVisible then [.optionClick]
       else [.pressKey "Enter"])
  else
    [.focusEl, .waitForVisible, .fillVal value]

/-- The fill handler (lines 182-217). -/
def fillStep (cfg : Config) (credentials : List (String × String)) (orc : StepOracle)
    (n : Nat) (a : Action) : Except Fault Unit × List Ev :=
  match a.selector with
  | none => (.error (.valueError "fill action requires a selector"), [])
  | some sel =>
    if sel = "" then (.error (.valueError "fill action requires a selector"), [])
    else
      let orig := pyOrStr a.value ""
      let value := _inject_credentials orig credentials
      let is_sensitive :=
        containsStr orig "\x7b\x7bUSERNAME\x7d\x7d" || containsStr orig "\x7b\x7bPASSWORD\x7d\x7d"
      let display_value := if is_sensitive then _mask value else value
      stepFinish
        [Ev.logLine ("Filling \x27" ++ sel ++ "\x27 with: " ++ display_value),
         .resolved (_get_robust_locator orc.page sel)]
        ("step_" ++ pad2 n ++ "_fill_" ++
          (if is_sensitive then _mask value else "input") ++ ".png")
        (retryRun orc.opRes
          (fun r => match r with | .ok _ => fillAttemptEvs cfg orc value | .error _ => [])
          cfg.maxRetries cfg.retryDelayMs)

/-- The select handler (lines 218-238).  The hidden-native-control path's
adjacent-visible-input discovery is kept abstract; its effects on that input
are recorded like the combobox path of fill. -/
def selectStep (cfg : Config) (orc : StepOracle) (n : Nat) (a : Action) :
    Except Fault Unit × List Ev :=
  match a.selector with
  | none => (.error (.valueError "select action requires a selector"), [])
  | some sel =>
    if sel = "" then (.error (.valueError "select action requires a selector"), [])
    else
      let value := pyOrStr a.value ""
      let attemptEvs :=
        if orc.selectHidden then
          [Ev.focusEl, .fillVal "", .typeVal value, .waitTimeout 800, .pressKey "Enter"]
        else [Ev.selectOpt value]
      stepFinish
        [Ev.logLine ("Selecting \x27" ++ value ++ "\x27 in \x27" ++ sel ++ "\x27"),
         .resolved (_get_robust_locator orc.page sel)]
        ("step_" ++ pad2 n ++ "_select.png")
        (retryRun orc.opRes
          (fun r => match r with | .ok _ => attemptEvs | .error _ => [])
          cfg.maxRetries cfg.retryDelayMs)

/-- The press_key handler (lines 239-243): un-retried, no screenshot. -/
def pressKeyStep (orc : StepOracle) (a : Action) : Except Fault Unit × List Ev :=
  let key := pyOrStr a.value "Tab"
  match orc.pressRes with
  | .ok _ => (.ok (), [.pressKey key, .waitTimeout 150])
  | .error e => (.error (toFault e), [.pressKey key])

/-- The assert_title handler (lines 254-259): substring containment of the
expected value in the live title; a `None` expected value would raise a
`TypeError` at the `in` test. -/
def assertTitleStep (orc : StepOracle) (a : Action) : Except Fault Unit × List Ev :=
  match a.value with
  | none => (.error (.pwOther "TypeError"), [.titleRead])
  | some expected =>
    if containsStr orc.title expected then (.ok (), [.titleRead])
    else
      (.error (.assertionError ("Title mismatch: expected \x27" ++ expected ++
        "\x27 in \x27" ++ orc.title ++ "\x27")), [.titleRead])

/-- The click handler (lines 244-253). -/
def clickStep (cfg : Config) (orc : StepOracle) (n : Nat) (a : Action) :
    Except Fault Unit × List Ev :=
  match a.selector with
  | none => (.error (.valueError "click action requires a selector"), [])
  | some sel =>
    if sel = "" then (.error (.valueError "click action requires a selector"), [])
    else
      stepFinish [Ev.resolved (_get_robust_locator orc.page sel)]
        ("step_" ++ pad2 n ++ "_click.png")
        (retryRun orc.opRes
          (fun r => match r with | .ok _ => [.waitForVisible, .clickEl] | .error _ => [])
          cfg.maxRetries cfg.retryDelayMs)

/-- One iteration of the step loop: dispatch on `action.type` in source
order; an unrecognized type logs a warning and succeeds with no effect. -/
def runStep (cfg : Config) (credentials : List (String × String)) (orc : StepOracle)
    (n : Nat) (a : Action) : Except Fault Unit × List Ev :=
  if a.type = "navigate" then navigateStep cfg orc n a
  else if a.type = "wait" then waitStep n a
  else if a.type = "wait_for_selector" then waitForSelectorStep cfg orc a
  else if a.type = "fill" then fillStep cfg credentials orc n a
  else if a.type = "select" then selectStep cfg orc n a
  else if a.type = "press_key" then pressKeyStep orc a
  else if a.type = "click" then clickStep cfg orc n a
  else if a.type = "assert_title" then assertTitleStep orc a
  else (.ok (), [])

/-- The step loop from step number `n`: on a step failure, capture the
failure screenshot when enabled, then re-raise — remaining steps never
run. -/
def runFrom (cfg : Config) (credentials : List (String × String))
    (orcs : Nat → StepOracle) : Nat → List Action → Except Fault Unit × List Ev
  | _, [] => (.ok (), [])
  | n, a :: rest =>
    let step := runStep cfg credentials (orcs n) n a
    match step.1 with
    | .ok _ =>
      let tail := runFrom cfg credentials orcs (n + 1) rest
      (tail.1, step.2 ++ tail.2)
    | .error f =>
      (.error f,
        step.2 ++
          (if cfg.screenshotOnFailure
           then [.screenshot ("step_" ++ pad2 n ++ "_FAILURE.png")] else []))

/-- `run_plan`: 1-indexed step loop; teardown (trace stop, close) always
runs and is outside the recorded per-step events. -/
def runPlan (cfg : Config) (credentials : List (String × String))
    (orcs : Nat → StepOracle) (actions : List Action) : Except Fault Unit × List Ev :=
  runFrom cfg credentials orcs 1 actions

/-! ### Concrete fixtures used by witnesses and counterexamples -/

/-- A concrete URL-parse oracle used in witnesses: two well-formed URLs with
their hostnames, everything else a parse failure. -/
def parse0 : String → Except String (Option String) := fun u =>
  if u = "https://evil.example" then .ok (some "evil.example")
  else if u = "http://App.Example.com/x" then .ok (some "App.Example.com")
  else .error "invalid"

/-- Concrete configuration (Scenario B allowlist, `config.py` defaults for
the rest). -/
def cfg0 : Config :=
  { allowed := ["localhost"], parseURL := parse0, maxRetries := 3,
    retryDelayMs := 1000, autocompleteWaitMs := 1000, screenshotOnFailure := true }

/-- A concrete page oracle. -/
def page0 : PageOracle := { workLogCount := 0, buttonExact := fun _ => .ok 0 }

/-- A concrete step oracle on which every browser call succeeds and the fill
capability probe reports a plain field. -/
def orc0 : StepOracle :=
  { page := page0, opRes := fun _ => .ok (), probeThrows := false,
    probeRole := none, probeReadonly := none, optionCheckThrows := false,
    optionVisible := false, selectHidden := false, pressRes := .ok (),
    title := "Dashboard" }

/-- Scenario B's navigate action. -/
def navEvil : Action := { type := "navigate", value := some "https://evil.example" }

/-- A bare press_key action. -/
def pressA : Action := { type := "press_key" }

/-- A bare wait action. -/
def waitA : Action := { type := "wait" }

/-- A fill action whose value carries a non-default placeholder name. -/
def fillTok : Action :=
  { type := "fill", selector := some "#f", value := some "\x7b\x7bTOKEN\x7d\x7d" }

/-! ## Theorems settling the claims -/

/-- C1: the domain guard returns true iff the lowercased hostname parsed from
the URL ends with at least one allowlist entry (suffix match), and returns
false for every URL whose parsing fails (fail-closed). -/
theorem C1_domain_guard (parse : String → Except String (Option String))
    (allowed : List String) (url : String) :
    ((∃ e, parse url = .error e) → _domain_allowed parse allowed url = false) ∧
    (∀ h, parse url = .ok (some h) →
      (_domain_allowed parse allowed url = true ↔
        ∃ a ∈ allowed, pyEndsWith (pyLower h) a = true)) := by
  constructor
  · rintro ⟨e, he⟩
    simp [_domain_allowed, he]
  · intro h hh
    simp [_domain_allowed, hh, List.any_eq_true]

/-- Witness for C1 at concrete inputs: a malformed URL is rejected, and an
allowlisted hostname with mixed case is accepted. -/
theorem C1_domain_guard_witness :
    _domain_allowed parse0 ["localhost"] "::not a url::" = false ∧
    _domain_allowed parse0 ["example.com"] "http://App.Example.com/x" = true :=
  ⟨(C1_domain_guard parse0 ["localhost"] "::not a url::").1 ⟨"invalid", rfl⟩,
   ((C1_domain_guard parse0 ["example.com"] "http://App.Example.com/x").2
        "App.Example.com" rfl).mpr ⟨"example.com", by decide, by decide⟩⟩

/-- C4 counterexample: `mask` is `re.sub(r".", "•", s)` and the regex `.`
does not match a newline, so `mask("\n") = "\n"` shares its character with
the input — refuting "shares no character with s" (and "one opaque symbol per
input character") at the concrete input `"\n"`. -/
theorem C4_counterexample :
    _mask "\n" = "\n" ∧
    Char.ofNat 10 ∈ (_mask "\n").data ∧ Char.ofNat 10 ∈ ("\n" : String).data := by
  refine ⟨by decide, by decide, by decide⟩

/-- C4 amended: `mask` is length-preserving and maps every character to the
opaque symbol except newlines, which are preserved; hence for inputs without
newlines and without the opaque symbol itself the output shares no character
with the input; `mask("") = ""`. -/
theorem C4_amended (s : String) :
    (_mask s).length = s.length ∧ _mask "" = "" ∧
    (∀ c ∈ (_mask s).data, c = bulletChar ∨ c = Char.ofNat 10) ∧
    ((∀ c ∈ s.data, c ≠ Char.ofNat 10 ∧ c ≠ bulletChar) →
      ∀ c ∈ (_mask s).data, c ∉ s.data) := by
  have hmask : ∀ t : String, t ≠ "" →
      _mask t = ⟨t.data.map (fun c => if c = Char.ofNat 10 then c else bulletChar)⟩ :=
    fun t ht => by rw [_mask, if_neg ht]
  by_cases hs : s = ""
  · subst hs
    exact ⟨rfl, rfl, by intro c hc; simp [_mask] at hc,
      by intro _ c hc; simp [_mask] at hc⟩
  · refine ⟨?_, rfl, ?_, ?_⟩
    · rw [hmask s hs]
      show (s.data.map _).length = s.data.length
      simp
    · intro c hc
      rw [hmask s hs] at hc
      rcases List.mem_map.mp hc with ⟨a, _, ha⟩
      by_cases h10 : a = Char.ofNat 10
      · right; rw [← ha, if_pos h10, h10]
      · left; rw [← ha, if_neg h10]
    · intro hclean c hc hcs
      rw [hmask s hs] at hc
      rcases List.mem_map.mp hc with ⟨a, hamem, ha⟩
      have hcb : c = bulletChar := by rw [← ha, if_neg (hclean a hamem).1]
      exact (hclean c hcs).2 hcb

/-- Witness for C4 amended at the concrete input "abc": same length, and the
opaque symbol does not occur in the input. -/
theorem C4_amended_witness :
    (_mask "abc").length = ("abc" : String).length ∧
    Char.ofNat 8226 ∉ ("abc" : String).data :=
  ⟨(C4_amended "abc").1,
   (C4_amended "abc").2.2.2 (by decide) (Char.ofNat 8226) (by decide)⟩

/-- C10: the schema validator converts any integer value to its decimal
string, every validated value is absent or a string, and consequently the
integer branch of the wait handler's `isinstance` dispatch is never
selected for a schema-validated action value. -/
theorem C10_schema_value_string (v : PyValue) :
    (convert_value_to_string v = .pyNone ∨
      ∃ s, convert_value_to_string v = .pyStr s) ∧
    (∀ n : Int, convert_value_to_string (.pyInt n) = .pyStr (toString n)) ∧
    waitBranchOf (convert_value_to_string v) ≠ .intBranch := by
  refine ⟨?_, fun _ => rfl, ?_⟩ <;>
    cases v <;> simp [convert_value_to_string, waitBranchOf]

/-- Witness for C10 at a concrete integer value. -/
theorem C10_schema_value_string_witness :
    convert_value_to_string (.pyInt 7) = .pyStr (toString (7 : Int)) :=
  (C10_schema_value_string (.pyInt 7)).2.1 7

/-- A rewriting pass over a string without the pattern leaves it unchanged. -/
theorem replaceAllFuel_no_occ (pat repl : List Char) :
    ∀ (fuel : Nat) (s : List Char), containsList pat s = false →
      replaceAllFuel pat repl fuel s = s := by
  intro fuel
  induction fuel with
  | zero => intro s _; rfl
  | succ n ih =>
    intro s h
    cases s with
    | nil =>
      rw [containsList] at h
      simp [replaceAllFuel, h]
    | cons c rest =>
      rw [containsList, Bool.or_eq_false_iff] at h
      simp [replaceAllFuel, h.1, ih rest h.2]

/-- `str.replace` with an absent pattern is the identity. -/
theorem pyReplace_no_occ (v pat repl : String) (h : containsStr v pat = false) :
    pyReplace v pat repl = v := by
  apply String.ext
  show replaceAllFuel pat.data repl.data v.data.length v.data = v.data
  exact replaceAllFuel_no_occ pat.data repl.data v.data.length v.data h

/-- The membership guard inside the credential loop is redundant: each entry
acts as an unconditional textual replacement. -/
theorem injectStep_eq (v : String) (kv : String × String) :
    injectStep v kv = pyReplace v ("\x7b\x7b" ++ kv.1 ++ "\x7d\x7d") kv.2 := by
  rw [injectStep]
  by_cases h : containsStr v ("\x7b\x7b" ++ kv.1 ++ "\x7d\x7d") = true
  · simp [h]
  · simp only [Bool.not_eq_true] at h
    simp [h, pyReplace_no_occ _ _ _ h]

/-- A placeholder pattern is never the empty string, so the empty value is a
fixed point of the credential loop body. -/
theorem injectStep_empty (kv : String × String) : injectStep "" kv = "" := by
  rw [injectStep_eq]
  apply pyReplace_no_occ
  show containsList ("\x7b\x7b" ++ kv.1 ++ "\x7d\x7d").data [] = false
  rw [containsList]
  cases h : ("\x7b\x7b" ++ kv.1 ++ "\x7d\x7d").data with
  | nil =>
    rw [String.data_append] at h
    exact absurd (List.append_eq_nil.mp h).2 (by decide)
  | cons c cs => rfl

/-- The credential loop never escapes the empty string. -/
theorem foldl_injectStep_empty :
    ∀ creds : List (String × String), creds.foldl injectStep "" = "" := by
  intro creds
  induction creds with
  | nil => rfl
  | cons kv rest ih => rw [List.foldl_cons, injectStep_empty, ih]

/-- C5 counterexample: with the map `{A: "{{B}}", B: "x"}` (iteration order A
then B) and the value `"{{A}}"`, the code substitutes sequentially and
returns `"x"`, whereas the claimed behaviour — replace each placeholder
present in the value with its mapped value, untouched otherwise — yields
`"{{B}}"` (the single-pass substitution `injectCredentialsSpec`, modelled
from the spec's words). -/
theorem C5_counterexample :
    _inject_credentials "\x7b\x7bA\x7d\x7d" [("A", "\x7b\x7bB\x7d\x7d"), ("B", "x")] = "x" ∧
    injectCredentialsSpec "\x7b\x7bA\x7d\x7d" [("A", "\x7b\x7bB\x7d\x7d"), ("B", "x")] =
      "\x7b\x7bB\x7d\x7d" ∧
    ("x" : String) ≠ "\x7b\x7bB\x7d\x7d" := by
  refine ⟨by decide, by decide, by decide⟩

/-- C5 amended: `injectCredentials` applies the credential entries
sequentially, in map iteration order, each one replacing every occurrence of
its placeholder `\x7b\x7bKEY\x7d\x7d` in the current string (so a replacement
value containing a later entry's placeholder is itself substituted); it is a
pure function; in particular
`injectCredentials("\x7b\x7bUSERNAME\x7d\x7d:\x7b\x7bOTHER\x7d\x7d",
\x7bUSERNAME:"alice"\x7d) = "alice:\x7b\x7bOTHER\x7d\x7d"` (the unknown
placeholder is untouched). -/
theorem C5_amended :
    (∀ (value : String) (kv : String × String) (rest : List (String × String)),
      value ≠ "" →
      _inject_credentials value (kv :: rest) =
        _inject_credentials (pyReplace value ("\x7b\x7b" ++ kv.1 ++ "\x7d\x7d") kv.2) rest) ∧
    _inject_credentials "\x7b\x7bUSERNAME\x7d\x7d:\x7b\x7bOTHER\x7d\x7d"
        [("USERNAME", "alice")] = "alice:\x7b\x7bOTHER\x7d\x7d" := by
  constructor
  · intro value kv rest hne
    rw [_inject_credentials, if_neg hne, List.foldl_cons, injectStep_eq]
    rw [_inject_credentials]
    by_cases hz : pyReplace value ("\x7b\x7b" ++ kv.1 ++ "\x7d\x7d") kv.2 = ""
    · rw [if_pos hz, hz, foldl_injectStep_empty]
    · rw [if_neg hz]
  · decide

/-- Witness for C5 amended at a concrete input. -/
theorem C5_amended_witness :
    _inject_credentials "\x7b\x7bU\x7d\x7d" [("U", "bob")] =
      _inject_credentials (pyReplace "\x7b\x7bU\x7d\x7d" ("\x7b\x7b" ++ "U" ++ "\x7d\x7d") "bob") [] :=
  C5_amended.1 "\x7b\x7bU\x7d\x7d" ("U", "bob") [] (by decide)

/-- C6: the locator resolver tries its strategies in fixed priority order
with first match winning: the textarea escape hatch; then `tag:contains(..)`
dispatched on the tag (`a` → link-by-text, `button` → exact-name role probe
falling back to substring name match on zero results or probe failure, any
other tag → substring visible text); then `tag[label=..]` → exact label; then
`text=..` → exact text; else the whole pattern as a literal selector.  In
particular `a:contains(\x27Submit\x27)` resolves via the contains strategy
before the CSS fallback, `input[label=\x27Email\x27]` via the label strategy,
and an unmatched pattern falls through to the literal selector. -/
theorem C6_locator_priority :
    (∀ page : PageOracle,
      _get_robust_locator page "a:contains(\x27Submit\x27)" = .linkHasText "Submit") ∧
    (∀ page : PageOracle,
      _get_robust_locator page "input[label=\x27Email\x27]" = .labelExact "Email") ∧
    (∀ page : PageOracle,
      _get_robust_locator page "#submit-btn" = .css "#submit-btn") ∧
    (∀ (page : PageOracle) (sel : String), textareaCond sel = true →
      _get_robust_locator page sel =
        (if page.workLogCount = 1 then .workLogById else .workLogFallback)) ∧
    (∀ (page : PageOracle) (sel tag text : String), textareaCond sel = false →
      findContains sel.data = some (tag, text) →
      _get_robust_locator page sel =
        (if pyLower tag = "a" then .linkHasText text
         else if pyLower tag = "button" then
           (match page.buttonExact text with
            | .ok c => if c > 0 then .roleButtonExact text else .roleButtonFuzzy text
            | .error _ => .roleButtonFuzzy text)
         else .textSubstring text)) ∧
    (∀ (page : PageOracle) (sel lbl : String), textareaCond sel = false →
      findContains sel.data = none → findLabel sel.data = some lbl →
      _get_robust_locator page sel = .labelExact lbl) ∧
    (∀ (page : PageOracle) (sel t : String), textareaCond sel = false →
      findContains sel.data = none → findLabel sel.data = none →
      matchTextExact sel.data = some t →
      _get_robust_locator page sel = .textExact t) ∧
    (∀ (page : PageOracle) (sel : String), textareaCond sel = false →
      findContains sel.data = none → findLabel sel.data = none →
      matchTextExact sel.data = none →
      _get_robust_locator page sel = .css sel) := by
  refine ⟨fun _ => rfl, fun _ => rfl, fun _ => rfl, ?_, ?_, ?_, ?_, ?_⟩
  · intro page sel h
    rw [_get_robust_locator, if_pos h]
  · intro page sel tag text h hc
    rw [_get_robust_locator, if_neg (by simp [h]), hc]
  · intro page sel lbl h hc hl
    rw [_get_robust_locator, if_neg (by simp [h]), hc, hl]
  · intro page sel t h hc hl ht
    rw [_get_robust_locator, if_neg (by simp [h]), hc, hl, ht]
  · intro page sel h hc hl ht
    rw [_get_robust_locator, if_neg (by simp [h]), hc, hl, ht]

/-- Witness for C6 on concrete inputs: the label strategy fires for a
non-contains pattern, on a concrete page oracle. -/
theorem C6_locator_priority_witness :
    _get_robust_locator page0 "div[label=\x27Port\x27]" = .labelExact "Port" :=
  C6_locator_priority.2.2.2.2.2.1 page0 "div[label=\x27Port\x27]" "Port"
    (by decide) (by decide) (by decide)

/-- Equation lemma: a successful invocation returns at once. -/
theorem retryFrom_succ_ok {α : Type} (op : Nat → Except PwError α) (maxr d attempt r : Nat)
    (v : α) (h : op attempt = .ok v) :
    retryFrom op maxr d attempt (r + 1) = (some (.ok v), 1, []) := by
  simp [retryFrom, h]

/-- Equation lemma: a timeout on the final attempt is re-raised. -/
theorem retryFrom_succ_timeout_last {α : Type} (op : Nat → Except PwError α)
    (maxr d attempt r : Nat) (m : String)
    (h : op attempt = .error (.timeout m)) (hl : attempt = maxr - 1) :
    retryFrom op maxr d attempt (r + 1) = (some (.error (.timeout m)), 1, []) := by
  subst hl
  simp [retryFrom, h]

/-- Equation lemma: a non-final timeout sleeps and retries. -/
theorem retryFrom_succ_timeout {α : Type} (op : Nat → Except PwError α)
    (maxr d attempt r : Nat) (m : String)
    (h : op attempt = .error (.timeout m)) (hne : attempt ≠ maxr - 1) :
    retryFrom op maxr d attempt (r + 1) =
      ((retryFrom op maxr d (attempt + 1) r).1,
       (retryFrom op maxr d (attempt + 1) r).2.1 + 1,
       d * 2 ^ attempt :: (retryFrom op maxr d (attempt + 1) r).2.2) := by
  simp [retryFrom, h, hne]

/-- Equation lemma: any non-timeout failure is re-raised at once. -/
theorem retryFrom_succ_other {α : Type} (op : Nat → Except PwError α)
    (maxr d attempt r : Nat) (m : String) (h : op attempt = .error (.other m)) :
    retryFrom op maxr d attempt (r + 1) = (some (.error (.other m)), 1, []) := by
  simp [retryFrom, h]

/-- Skipping over `k` leading timeout attempts: the loop makes `k` extra
invocations and `k` back-off sleeps before reaching attempt `attempt + k`. -/
theorem retryFrom_skip {α : Type} (op : Nat → Except PwError α) (maxr d : Nat) :
    ∀ (k attempt remaining : Nat), k < remaining → attempt + remaining = maxr →
      (∀ a, attempt ≤ a → a < attempt + k → ∃ s, op a = .error (.timeout s)) →
      retryFrom op maxr d attempt remaining =
        ((retryFrom op maxr d (attempt + k) (remaining - k)).1,
         (retryFrom op maxr d (attempt + k) (remaining - k)).2.1 + k,
         ((List.range k).map (fun i => d * 2 ^ (attempt + i))) ++
           (retryFrom op maxr d (attempt + k) (remaining - k)).2.2) := by
  intro k
  induction k with
  | zero =>
    intro attempt remaining _ _ _
    simp
  | succ kk ih =>
    intro attempt remaining hk hsum hto
    obtain ⟨r, rfl⟩ : ∃ r, remaining = r + 1 := ⟨remaining - 1, by omega⟩
    obtain ⟨s, hs⟩ := hto attempt (Nat.le_refl _) (by omega)
    have hne : attempt ≠ maxr - 1 := by omega
    rw [retryFrom_succ_timeout op maxr d attempt r s hs hne]
    have hrec := ih (attempt + 1) r (by omega) (by omega)
      (fun a ha1 ha2 => hto a (by omega) (by omega))
    have e1 : attempt + 1 + kk = attempt + (kk + 1) := by omega
    have e2 : r - kk = r + 1 - (kk + 1) := by omega
    rw [e1, e2] at hrec
    rw [hrec]
    dsimp only
    have hlist : ((List.range (kk + 1)).map (fun i => d * 2 ^ (attempt + i))) =
        d * 2 ^ attempt :: (List.range kk).map (fun i => d * 2 ^ (attempt + 1 + i)) := by
      rw [List.range_succ_eq_map, List.map_cons, List.map_map]
      refine congrArg₂ List.cons ?_ ?_
      · show d * 2 ^ (attempt + 0) = d * 2 ^ attempt
        rw [Nat.add_zero]
      · refine congrArg (fun f => List.map f (List.range kk)) ?_
        funext i
        show d * 2 ^ (attempt + (i + 1)) = d * 2 ^ (attempt + 1 + i)
        have e3 : attempt + (i + 1) = attempt + 1 + i := by omega
        rw [e3]
    rw [hlist]
    refine congrArg₂ Prod.mk rfl (congrArg₂ Prod.mk (by omega) rfl)

/-- C3: for an attempt bound `N ≥ 1` and base delay `d`, the retry
combinator (i) invokes an operation failing with timeouts on its first
`k < N` invocations and then succeeding exactly `k + 1` times, sleeping
`d * 2 ^ a` ms after the `a`-th failed attempt, and returns the success
value; (ii) invokes an operation failing with timeouts on all `N`
invocations exactly `N` times and propagates the final timeout unmodified;
(iii) propagates a non-timeout failure immediately, with no further
invocations. -/
theorem C3_retry_policy :
    (∀ (α : Type) (op : Nat → Except PwError α) (N d k : Nat) (v : α) (m : Nat → String),
      k < N →
      (∀ a, a < k → op a = .error (.timeout (m a))) → op k = .ok v →
      _retry_action op N d =
        (some (.ok v), k + 1, (List.range k).map (fun a => d * 2 ^ a))) ∧
    (∀ (α : Type) (op : Nat → Except PwError α) (N d : Nat) (m : Nat → String),
      1 ≤ N →
      (∀ a, a < N → op a = .error (.timeout (m a))) →
      _retry_action op N d =
        (some (.error (.timeout (m (N - 1)))), N,
         (List.range (N - 1)).map (fun a => d * 2 ^ a))) ∧
    (∀ (α : Type) (op : Nat → Except PwError α) (N d j : Nat) (msg : String) (m : Nat → String),
      j < N →
      (∀ a, a < j → op a = .error (.timeout (m a))) → op j = .error (.other msg) →
      _retry_action op N d =
        (some (.error (.other msg)), j + 1, (List.range j).map (fun a => d * 2 ^ a))) := by
  have hrange : ∀ d k : Nat,
      ((List.range k).map fun i => d * 2 ^ (0 + i)) = (List.range k).map fun a => d * 2 ^ a := by
    intro d k
    refine congrArg (fun f => List.map f (List.range k)) ?_
    funext i
    rw [Nat.zero_add]
  refine ⟨?_, ?_, ?_⟩
  · intro α op N d k v m hk hto hok
    rw [_retry_action, retryFrom_skip op N d k 0 N hk (Nat.zero_add N)
      (fun a h1 h2 => ⟨m a, hto a (by omega)⟩)]
    obtain ⟨t, ht⟩ : ∃ t, N - k = t + 1 := ⟨N - k - 1, by omega⟩
    rw [ht, Nat.zero_add, retryFrom_succ_ok op N d k t v hok, hrange]
    dsimp only
    rw [List.append_nil]
    refine congrArg₂ Prod.mk rfl (congrArg₂ Prod.mk (by omega) rfl)
  · intro α op N d m hN hto
    rw [_retry_action, retryFrom_skip op N d (N - 1) 0 N (by omega) (Nat.zero_add N)
      (fun a h1 h2 => ⟨m a, hto a (by omega)⟩)]
    have h1 : N - (N - 1) = 0 + 1 := by omega
    rw [Nat.zero_add, h1,
      retryFrom_succ_timeout_last op N d (N - 1) 0 (m (N - 1)) (hto (N - 1) (by omega)) rfl,
      hrange]
    simp only [List.append_nil]
    refine congrArg₂ Prod.mk rfl (congrArg₂ Prod.mk (by omega) rfl)
  · intro α op N d j msg m hj hto hother
    rw [_retry_action, retryFrom_skip op N d j 0 N hj (Nat.zero_add N)
      (fun a h1 h2 => ⟨m a, hto a (by omega)⟩)]
    obtain ⟨t, ht⟩ : ∃ t, N - j = t + 1 := ⟨N - j - 1, by omega⟩
    rw [ht, Nat.zero_add, retryFrom_succ_other op N d j t msg hother, hrange]
    dsimp only
    rw [List.append_nil]
    refine congrArg₂ Prod.mk rfl (congrArg₂ Prod.mk (by omega) rfl)

/-- Witness for C3 at a concrete operation: two timeouts then success under a
bound of 3 gives three invocations, sleeps of 1000 and 2000 ms, and the
success value. -/
theorem C3_retry_policy_witness :
    @_retry_action Nat (fun a => if a < 2 then .error (.timeout "t") else .ok 7) 3 1000 =
      (some (.ok 7), 3, [1000, 2000]) := by
  have h := C3_retry_policy.1 Nat
    (fun a => if a < 2 then .error (.timeout "t") else .ok 7) 3 1000 2 7 (fun _ => "t")
    (by omega) (fun a ha => by simp [ha]) (by simp)
  rw [h]
  rfl

/-- C2: a navigate step whose URL the Domain Guard rejects fails immediately
with the domain-denial fault (the `SecurityFault` of the spec's taxonomy,
raised as a `ValueError` before any retry machinery): the browser navigation
call never occurs, the denial is never retried (the step performs no browser
call and no sleep at all — its event list is empty), the run aborts, and the
only artifact the aborted run may write is the failure screenshot, never a
navigation success artifact. -/
theorem C2_security_fault
    (cfg : Config) (credentials : List (String × String)) (orcs : Nat → StepOracle)
    (n : Nat) (a : Action) (url : String) (rest : List Action)
    (hty : a.type = "navigate") (hval : a.value = some url) (hne : url ≠ "")
    (hguard : _domain_allowed cfg.parseURL cfg.allowed url = false) :
    runStep cfg credentials (orcs n) n a =
      (.error (.valueError ("Domain not allowed: " ++ url)), []) ∧
    (runFrom cfg credentials orcs n (a :: rest)).1 =
      .error (.valueError ("Domain not allowed: " ++ url)) ∧
    (∀ u, Ev.gotoCall u ∉ (runFrom cfg credentials orcs n (a :: rest)).2) ∧
    (∀ s, Ev.screenshot s ∈ (runFrom cfg credentials orcs n (a :: rest)).2 →
      s = "step_" ++ pad2 n ++ "_FAILURE.png") := by
  have hstep : runStep cfg credentials (orcs n) n a =
      (.error (.valueError ("Domain not allowed: " ++ url)), []) := by
    simp [runStep, navigateStep, hty, hval, hne, hguard]
  have hrun : runFrom cfg credentials orcs n (a :: rest) =
      (.error (.valueError ("Domain not allowed: " ++ url)),
       if cfg.screenshotOnFailure
       then [.screenshot ("step_" ++ pad2 n ++ "_FAILURE.png")] else []) := by
    simp only [runFrom, hstep, List.nil_append]
  refine ⟨hstep, ?_, ?_, ?_⟩
  · rw [hrun]
  · intro u
    rw [hrun]
    by_cases hsof : cfg.screenshotOnFailure <;> simp [hsof]
  · intro s hs
    rw [hrun] at hs
    by_cases hsof : cfg.screenshotOnFailure <;> simp [hsof] at hs
    exact hs

/-- Witness for C2 at Scenario B's concrete inputs: plan
`[navigate("https://evil.example")]`, allowlist `["localhost"]`. -/
theorem C2_security_fault_witness :
    runStep cfg0 [] ((fun _ => orc0) 1) 1 navEvil =
      (.error (.valueError ("Domain not allowed: " ++ "https://evil.example")), []) ∧
    (runFrom cfg0 [] (fun _ => orc0) 1 [navEvil]).1 =
      .error (.valueError ("Domain not allowed: " ++ "https://evil.example")) :=
  ⟨(C2_security_fault cfg0 [] (fun _ => orc0) 1 navEvil "https://evil.example" []
      rfl rfl (by decide) (by decide)).1,
   (C2_security_fault cfg0 [] (fun _ => orc0) 1 navEvil "https://evil.example" []
      rfl rfl (by decide) (by decide)).2.1⟩

/-- `stepFinish` passes the operation outcome through. -/
theorem stepFinish_fst (pre : List Ev) (shot : String) (res : Except Fault Unit × List Ev) :
    (stepFinish pre shot res).1 = res.1 := by
  rw [stepFinish]
  cases hres : res.1 with
  | ok u => cases u; rfl
  | error f => rfl

/-- Every event of a finished step is a prefix event, an operation event, or
the success screenshot. -/
theorem stepFinish_mem (pre : List Ev) (shot : String) (res : Except Fault Unit × List Ev)
    (e : Ev) (he : e ∈ (stepFinish pre shot res).2) :
    e ∈ pre ∨ e ∈ res.2 ∨ e = .screenshot shot := by
  rw [stepFinish] at he
  cases hres : res.1 with
  | ok u =>
    rw [hres] at he
    simp only [List.mem_append, List.mem_singleton] at he
    tauto
  | error f =>
    rw [hres] at he
    simp only [List.mem_append] at he
    tauto

/-- Operation events survive into the finished step. -/
theorem stepFinish_mem_of_res (pre : List Ev) (shot : String)
    (res : Except Fault Unit × List Ev) (e : Ev) (he : e ∈ res.2) :
    e ∈ (stepFinish pre shot res).2 := by
  rw [stepFinish]
  cases hres : res.1 with
  | ok u => simp [he]
  | error f => simp [he]

/-- Prefix events survive into the finished step. -/
theorem stepFinish_mem_of_pre (pre : List Ev) (shot : String)
    (res : Except Fault Unit × List Ev) (e : Ev) (he : e ∈ pre) :
    e ∈ (stepFinish pre shot res).2 := by
  rw [stepFinish]
  cases hres : res.1 with
  | ok u => simp [he]
  | error f => simp [he]

/-- On success the finished step records the success screenshot. -/
theorem stepFinish_ok_shot (pre : List Ev) (shot : String)
    (res : Except Fault Unit × List Ev) (h : (stepFinish pre shot res).1 = .ok ()) :
    Ev.screenshot shot ∈ (stepFinish pre shot res).2 := by
  rw [stepFinish_fst] at h
  rw [stepFinish, h]
  simp

/-- Equation lemma: a successful attempt stops the retry loop. -/
theorem retryRunFrom_succ_ok (op : Nat → Except PwError Unit)
    (evsOf : Except PwError Unit → List Ev) (maxr delay attempt r : Nat)
    (h : op attempt = .ok ()) :
    retryRunFrom op evsOf maxr delay attempt (r + 1) = (.ok (), evsOf (.ok ())) := by
  simp [retryRunFrom, h]

/-- Equation lemma: a timeout on the final attempt is re-raised. -/
theorem retryRunFrom_succ_timeout_last (op : Nat → Except PwError Unit)
    (evsOf : Except PwError Unit → List Ev) (maxr delay attempt r : Nat) (m : String)
    (h : op attempt = .error (.timeout m)) (hl : attempt = maxr - 1) :
    retryRunFrom op evsOf maxr delay attempt (r + 1) =
      (.error (.pwTimeout m), evsOf (.error (.timeout m))) := by
  subst hl
  simp [retryRunFrom, h]

/-- Equation lemma: a non-final timeout records a back-off sleep and
retries. -/
theorem retryRunFrom_succ_timeout (op : Nat → Except PwError Unit)
    (evsOf : Except PwError Unit → List Ev) (maxr delay attempt r : Nat) (m : String)
    (h : op attempt = .error (.timeout m)) (hne : attempt ≠ maxr - 1) :
    retryRunFrom op evsOf maxr delay attempt (r + 1) =
      ((retryRunFrom op evsOf maxr delay (attempt + 1) r).1,
       evsOf (.error (.timeout m)) ++ .sleepMs (delay * 2 ^ attempt) ::
         (retryRunFrom op evsOf maxr delay (attempt + 1) r).2) := by
  simp [retryRunFrom, h, hne]

/-- Equation lemma: a non-timeout failure is re-raised at once. -/
theorem retryRunFrom_succ_other (op : Nat → Except PwError Unit)
    (evsOf : Except PwError Unit → List Ev) (maxr delay attempt r : Nat) (m : String)
    (h : op attempt = .error (.other m)) :
    retryRunFrom op evsOf maxr delay attempt (r + 1) =
      (.error (.pwOther m), evsOf (.error (.other m))) := by
  simp [retryRunFrom, h]

/-- Every event the retry loop records is an attempt event (for some attempt
outcome) or a back-off sleep. -/
theorem retryRunFrom_events (op : Nat → Except PwError Unit)
    (evsOf : Except PwError Unit → List Ev) (maxr delay : Nat) :
    ∀ (remaining attempt : Nat) (e : Ev),
      e ∈ (retryRunFrom op evsOf maxr delay attempt remaining).2 →
      (∃ r, e ∈ evsOf r) ∨ ∃ ms, e = .sleepMs ms := by
  intro remaining
  induction remaining with
  | zero =>
    intro attempt e he
    simp [retryRunFrom] at he
  | succ r ih =>
    intro attempt e he
    cases hop : op attempt with
    | ok u =>
      cases u
      rw [retryRunFrom_succ_ok op evsOf maxr delay attempt r hop] at he
      exact Or.inl ⟨.ok (), he⟩
    | error err =>
      cases err with
      | timeout m =>
        by_cases hl : attempt = maxr - 1
        · rw [retryRunFrom_succ_timeout_last op evsOf maxr delay attempt r m hop hl] at he
          exact Or.inl ⟨.error (.timeout m), he⟩
        · rw [retryRunFrom_succ_timeout op evsOf maxr delay attempt r m hop hl] at he
          dsimp only at he
          rcases List.mem_append.mp he with h1 | h2
          · exact Or.inl ⟨.error (.timeout m), h1⟩
          · rcases List.mem_cons.mp h2 with h3 | h4
            · exact Or.inr ⟨delay * 2 ^ attempt, h3⟩
            · exact ih (attempt + 1) e h4
      | other m =>
        rw [retryRunFrom_succ_other op evsOf maxr delay attempt r m hop] at he
        exact Or.inl ⟨.error (.other m), he⟩

/-- If the retry loop reports success (with at least one attempt available),
some invocation succeeded and the successful attempt's events are all
recorded. -/
theorem retryRunFrom_ok_delivers (op : Nat → Except PwError Unit)
    (evsOf : Except PwError Unit → List Ev) (maxr delay : Nat) :
    ∀ (remaining attempt : Nat), attempt + remaining = maxr → 1 ≤ remaining →
      (retryRunFrom op evsOf maxr delay attempt remaining).1 = .ok () →
      ∀ e ∈ evsOf (.ok ()), e ∈ (retryRunFrom op evsOf maxr delay attempt remaining).2 := by
  intro remaining
  induction remaining with
  | zero =>
    intro attempt _ h1
    omega
  | succ r ih =>
    intro attempt hsum _ hok e he
    cases hop : op attempt with
    | ok u =>
      cases u
      rw [retryRunFrom_succ_ok op evsOf maxr delay attempt r hop]
      exact he
    | error err =>
      cases err with
      | timeout m =>
        by_cases hl : attempt = maxr - 1
        · rw [retryRunFrom_succ_timeout_last op evsOf maxr delay attempt r m hop hl] at hok
          exact absurd hok (by simp)
        · have hr : 1 ≤ r := by omega
          rw [retryRunFrom_succ_timeout op evsOf maxr delay attempt r m hop hl] at hok
          dsimp only at hok
          rw [retryRunFrom_succ_timeout op evsOf maxr delay attempt r m hop hl]
          dsimp only
          have hmem := ih (attempt + 1) (by omega) hr hok e he
          exact List.mem_append_right _ (List.mem_cons_of_mem _ hmem)
      | other m =>
        rw [retryRunFrom_succ_other op evsOf maxr delay attempt r m hop] at hok
        exact absurd hok (by simp)

/-- `retryRun` version of `retryRunFrom_events`. -/
theorem retryRun_events (op : Nat → Except PwError Unit)
    (evsOf : Except PwError Unit → List Ev) (maxr delay : Nat) (e : Ev)
    (he : e ∈ (retryRun op evsOf maxr delay).2) :
    (∃ r, e ∈ evsOf r) ∨ ∃ ms, e = .sleepMs ms :=
  retryRunFrom_events op evsOf maxr delay maxr 0 e he

/-- `retryRun` version of `retryRunFrom_ok_delivers`. -/
theorem retryRun_ok_delivers (op : Nat → Except PwError Unit)
    (evsOf : Except PwError Unit → List Ev) (maxr delay : Nat) (hmax : 1 ≤ maxr)
    (hok : (retryRun op evsOf maxr delay).1 = .ok ())
    (e : Ev) (he : e ∈ evsOf (.ok ())) : e ∈ (retryRun op evsOf maxr delay).2 :=
  retryRunFrom_ok_delivers op evsOf maxr delay maxr 0 (Nat.zero_add maxr) hmax hok e he

/-- The events a fill attempt can record, enumerated. -/
theorem fillAttemptEvs_sub (cfg : Config) (orc : StepOracle) (value : String) :
    ∀ e ∈ fillAttemptEvs cfg orc value,
      e = .focusEl ∨ e = .fillVal "" ∨ e = .typeVal value ∨
      e = .waitTimeout cfg.autocompleteWaitMs ∨ e = .pressKey "Enter" ∨
      e = .optionClick ∨ e = .waitForVisible ∨ e = .fillVal value := by
  intro e he
  simp only [fillAttemptEvs] at he
  split at he
  · rcases List.mem_append.mp he with h | h
    · simp at h
      tauto
    · split at h
      · simp at h
        tauto
      · split at h <;> (simp at h; tauto)
  · simp at he
    tauto

/-- Every type event of a fill attempt carries the substituted value. -/
theorem fillAttemptEvs_typeVal (cfg : Config) (orc : StepOracle) (value v : String)
    (h : Ev.typeVal v ∈ fillAttemptEvs cfg orc value) : v = value := by
  rcases fillAttemptEvs_sub cfg orc value _ h with h' | h' | h' | h' | h' | h' | h' | h' <;>
    simp at h'
  exact h'

/-- Every fill event of a fill attempt carries the substituted value or the
clearing empty string of the combobox path. -/
theorem fillAttemptEvs_fillVal (cfg : Config) (orc : StepOracle) (value v : String)
    (h : Ev.fillVal v ∈ fillAttemptEvs cfg orc value) : v = value ∨ v = "" := by
  rcases fillAttemptEvs_sub cfg orc value _ h with h' | h' | h' | h' | h' | h' | h' | h' <;>
    simp at h' <;> tauto

/-- A successful fill attempt delivers the substituted value (typed on the
combobox path, filled on the plain path). -/
theorem fillAttemptEvs_delivers (cfg : Config) (orc : StepOracle) (value : String) :
    Ev.fillVal value ∈ fillAttemptEvs cfg orc value ∨
      Ev.typeVal value ∈ fillAttemptEvs cfg orc value := by
  simp only [fillAttemptEvs]
  by_cases hc : fillIsCombobox orc = true
  · rw [if_pos hc]
    right
    exact List.mem_append_left _ (by simp)
  · rw [if_neg hc]
    left
    simp

/-- A fill attempt records no log line. -/
theorem fillAttemptEvs_no_log (cfg : Config) (orc : StepOracle) (value s : String)
    (h : Ev.logLine s ∈ fillAttemptEvs cfg orc value) : False := by
  rcases fillAttemptEvs_sub cfg orc value _ h with h' | h' | h' | h' | h' | h' | h' | h' <;>
    simp at h'

/-- A fill attempt records no screenshot. -/
theorem fillAttemptEvs_no_shot (cfg : Config) (orc : StepOracle) (value s : String)
    (h : Ev.screenshot s ∈ fillAttemptEvs cfg orc value) : False := by
  rcases fillAttemptEvs_sub cfg orc value _ h with h' | h' | h' | h' | h' | h' | h' | h' <;>
    simp at h'

/-- Unfolding the fill handler on a present, non-empty selector. -/
theorem fillStep_eq (cfg : Config) (credentials : List (String × String)) (orc : StepOracle)
    (n : Nat) (a : Action) (sel : String) (hsel : a.selector = some sel) (hne : sel ≠ "") :
    fillStep cfg credentials orc n a =
      stepFinish
        [Ev.logLine ("Filling \x27" ++ sel ++ "\x27 with: " ++
           (if containsStr (pyOrStr a.value "") "\x7b\x7bUSERNAME\x7d\x7d" ||
               containsStr (pyOrStr a.value "") "\x7b\x7bPASSWORD\x7d\x7d"
            then _mask (_inject_credentials (pyOrStr a.value "") credentials)
            else _inject_credentials (pyOrStr a.value "") credentials)),
         .resolved (_get_robust_locator orc.page sel)]
        ("step_" ++ pad2 n ++ "_fill_" ++
          (if containsStr (pyOrStr a.value "") "\x7b\x7bUSERNAME\x7d\x7d" ||
              containsStr (pyOrStr a.value "") "\x7b\x7bPASSWORD\x7d\x7d"
           then _mask (_inject_credentials (pyOrStr a.value "") credentials)
           else "input") ++ ".png")
        (retryRun orc.opRes
          (fun r => match r with
            | .ok _ =>
              fillAttemptEvs cfg orc (_inject_credentials (pyOrStr a.value "") credentials)
            | .error _ => [])
          cfg.maxRetries cfg.retryDelayMs) := by
  simp only [fillStep, hsel]
  rw [if_neg hne]

/-- C7: in the fill handler, every value delivered to the browser (typed or
filled into the element) is the unmasked, credential-substituted string (the
combobox path additionally fills the empty clearing string before typing —
the spec's own "clear, type" contract); on success the substituted value is
actually delivered; and the masked copy goes only to the log line (and
likewise to the artifact filename, see the C9 theorems), never to the
browser. -/
theorem C7_unmasked_delivery
    (cfg : Config) (credentials : List (String × String)) (orc : StepOracle)
    (n : Nat) (a : Action) (sel : String)
    (hty : a.type = "fill") (hsel : a.selector = some sel) (hne : sel ≠ "")
    (hmax : 1 ≤ cfg.maxRetries) :
    (∀ v, Ev.typeVal v ∈ (runStep cfg credentials orc n a).2 →
      v = _inject_credentials (pyOrStr a.value "") credentials) ∧
    (∀ v, Ev.fillVal v ∈ (runStep cfg credentials orc n a).2 →
      v = _inject_credentials (pyOrStr a.value "") credentials ∨ v = "") ∧
    ((runStep cfg credentials orc n a).1 = .ok () →
      Ev.fillVal (_inject_credentials (pyOrStr a.value "") credentials)
          ∈ (runStep cfg credentials orc n a).2 ∨
      Ev.typeVal (_inject_credentials (pyOrStr a.value "") credentials)
          ∈ (runStep cfg credentials orc n a).2) ∧
    Ev.logLine ("Filling \x27" ++ sel ++ "\x27 with: " ++
        (if containsStr (pyOrStr a.value "") "\x7b\x7bUSERNAME\x7d\x7d" ||
            containsStr (pyOrStr a.value "") "\x7b\x7bPASSWORD\x7d\x7d"
         then _mask (_inject_credentials (pyOrStr a.value "") credentials)
         else _inject_credentials (pyOrStr a.value "") credentials))
      ∈ (runStep cfg credentials orc n a).2 := by
  have hrs : runStep cfg credentials orc n a = fillStep cfg credentials orc n a := by
    simp [runStep, hty]
  rw [hrs, fillStep_eq cfg credentials orc n a sel hsel hne]
  refine ⟨?_, ?_, ?_, ?_⟩
  · intro v hv
    rcases stepFinish_mem _ _ _ _ hv with h | h | h
    · simp at h
    · rcases retryRun_events _ _ _ _ _ h with ⟨r, hr⟩ | ⟨ms, hms⟩
      · rcases r with e | u
        · simp at hr
        · exact fillAttemptEvs_typeVal cfg orc _ v hr
      · simp at hms
    · simp at h
  · intro v hv
    rcases stepFinish_mem _ _ _ _ hv with h | h | h
    · simp at h
    · rcases retryRun_events _ _ _ _ _ h with ⟨r, hr⟩ | ⟨ms, hms⟩
      · rcases r with e | u
        · simp at hr
        · exact fillAttemptEvs_fillVal cfg orc _ v hr
      · simp at hms
    · simp at h
  · intro hok
    rw [stepFinish_fst] at hok
    rcases fillAttemptEvs_delivers cfg orc
        (_inject_credentials (pyOrStr a.value "") credentials) with hd | hd
    · left
      exact stepFinish_mem_of_res _ _ _ _ (retryRun_ok_delivers _ _ _ _ hmax hok _ hd)
    · right
      exact stepFinish_mem_of_res _ _ _ _ (retryRun_ok_delivers _ _ _ _ hmax hok _ hd)
  · exact stepFinish_mem_of_pre _ _ _ _ (by simp)

/-- Witness for C7 at a concrete fill step: the substituted secret is
delivered to the browser unmasked. -/
theorem C7_unmasked_delivery_witness :
    Ev.fillVal "s3cret" ∈ (runStep cfg0 [("TOKEN", "s3cret")] orc0 1 fillTok).2 := by
  have h := (C7_unmasked_delivery cfg0 [("TOKEN", "s3cret")] orc0 1 fillTok "#f"
    rfl rfl (by decide) (by decide)).2.2.1 (by rfl)
  rcases h with h | h
  · exact h
  · exact absurd h (by decide)

/-- C9 counterexample: on a fill whose original value carries the
non-default placeholder `\x7b\x7bTOKEN\x7d\x7d`, the substituted secret
appears unmasked in the log line but the artifact filename embeds the
literal `input` — the secret does NOT appear in the filename, refuting the
claim that it appears unmasked in both. -/
theorem C9_counterexample :
    runStep cfg0 [("TOKEN", "s3cret")] orc0 1 fillTok =
      (.ok (), [Ev.logLine "Filling \x27#f\x27 with: s3cret",
                Ev.resolved (.css "#f"),
                Ev.focusEl, Ev.waitForVisible, Ev.fillVal "s3cret",
                Ev.screenshot "step_01_fill_input.png"]) ∧
    containsStr "Filling \x27#f\x27 with: s3cret" "s3cret" = true ∧
    containsStr "step_01_fill_input.png" "s3cret" = false := by
  refine ⟨by rfl, by decide, by decide⟩

/-- C9 amended: in the fill handler the value written to the log line is
masked iff the original, pre-substitution action value contains the literal
token `\x7b\x7bUSERNAME\x7d\x7d` or `\x7b\x7bPASSWORD\x7d\x7d`; the
screenshot filename embeds the masked value when sensitive and the literal
`input` otherwise — for any other placeholder name the substituted secret
appears unmasked in the log line only, and the filename never contains the
value. -/
theorem C9_amended
    (cfg : Config) (credentials : List (String × String)) (orc : StepOracle)
    (n : Nat) (a : Action) (sel : String)
    (hty : a.type = "fill") (hsel : a.selector = some sel) (hne : sel ≠ "") :
    (∀ s, Ev.logLine s ∈ (runStep cfg credentials orc n a).2 →
      s = "Filling \x27" ++ sel ++ "\x27 with: " ++
        (if containsStr (pyOrStr a.value "") "\x7b\x7bUSERNAME\x7d\x7d" ||
            containsStr (pyOrStr a.value "") "\x7b\x7bPASSWORD\x7d\x7d"
         then _mask (_inject_credentials (pyOrStr a.value "") credentials)
         else _inject_credentials (pyOrStr a.value "") credentials)) ∧
    (∀ s, Ev.screenshot s ∈ (runStep cfg credentials orc n a).2 →
      s = "step_" ++ pad2 n ++ "_fill_" ++
        (if containsStr (pyOrStr a.value "") "\x7b\x7bUSERNAME\x7d\x7d" ||
            containsStr (pyOrStr a.value "") "\x7b\x7bPASSWORD\x7d\x7d"
         then _mask (_inject_credentials (pyOrStr a.value "") credentials)
         else "input") ++ ".png") := by
  have hrs : runStep cfg credentials orc n a = fillStep cfg credentials orc n a := by
    simp [runStep, hty]
  rw [hrs, fillStep_eq cfg credentials orc n a sel hsel hne]
  constructor
  · intro s hs
    rcases stepFinish_mem _ _ _ _ hs with h | h | h
    · simp at h
      simpa using h
    · rcases retryRun_events _ _ _ _ _ h with ⟨r, hr⟩ | ⟨ms, hms⟩
      · rcases r with e | u
        · simp at hr
        · exact (fillAttemptEvs_no_log cfg orc _ s hr).elim
      · simp at hms
    · simp at h
  · intro s hs
    rcases stepFinish_mem _ _ _ _ hs with h | h | h
    · simp at h
    · rcases retryRun_events _ _ _ _ _ h with ⟨r, hr⟩ | ⟨ms, hms⟩
      · rcases r with e | u
        · simp at hr
        · exact (fillAttemptEvs_no_shot cfg orc _ s hr).elim
      · simp at hms
    · simp at h
      simpa using h

/-- Witness for C9 amended at the concrete fill of `C9_counterexample`: the
log line carries the unmasked substituted secret (the sensitivity test on
the original value is false for the placeholder name `TOKEN`). -/
theorem C9_amended_witness :
    "Filling \x27#f\x27 with: s3cret" =
      "Filling \x27" ++ "#f" ++ "\x27 with: " ++
        (if containsStr (pyOrStr fillTok.value "") "\x7b\x7bUSERNAME\x7d\x7d" ||
            containsStr (pyOrStr fillTok.value "") "\x7b\x7bPASSWORD\x7d\x7d"
         then _mask (_inject_credentials (pyOrStr fillTok.value "") [("TOKEN", "s3cret")])
         else _inject_credentials (pyOrStr fillTok.value "") [("TOKEN", "s3cret")]) :=
  (C9_amended cfg0 [("TOKEN", "s3cret")] orc0 1 fillTok "#f" rfl rfl (by decide)).1
    "Filling \x27#f\x27 with: s3cret" (by decide)

/-- C8 counterexample: a press_key step succeeds yet records no screenshot
at all, refuting the claim that every successful step captures a screenshot
artifact named from the step index and action type. -/
theorem C8_counterexample :
    runStep cfg0 [] orc0 1 pressA = (.ok (), [Ev.pressKey "Tab", Ev.waitTimeout 150]) ∧
    Ev.screenshot "step_01_press_key.png" ∉ [Ev.pressKey "Tab", Ev.waitTimeout 150] := by
  refine ⟨by rfl, by decide⟩

/-- C8 amended: successful navigate, wait, fill, select and click steps
capture a screenshot named `step_<NN>_<action>[_<maskedvalue>].png` (with
any sensitive fill value masked in the name); wait_for_selector, press_key,
assert_title and unknown-type steps capture no screenshot on any outcome;
and with artifact-on-failure enabled a failed step appends
`step_<NN>_FAILURE.png` and aborts the run. -/
theorem C8_amended :
    (∀ (cfg : Config) (creds : List (String × String)) (orc : StepOracle) (n : Nat)
        (a : Action), a.type = "navigate" → (runStep cfg creds orc n a).1 = .ok () →
      Ev.screenshot ("step_" ++ pad2 n ++ "_navigate.png") ∈ (runStep cfg creds orc n a).2) ∧
    (∀ (cfg : Config) (creds : List (String × String)) (orc : StepOracle) (n : Nat)
        (a : Action), a.type = "wait" →
      Ev.screenshot ("step_" ++ pad2 n ++ "_wait.png") ∈ (runStep cfg creds orc n a).2) ∧
    (∀ (cfg : Config) (creds : List (String × String)) (orc : StepOracle) (n : Nat)
        (a : Action) (sel : String), a.type = "fill" → a.selector = some sel → sel ≠ "" →
      (runStep cfg creds orc n a).1 = .ok () →
      Ev.screenshot ("step_" ++ pad2 n ++ "_fill_" ++
          (if containsStr (pyOrStr a.value "") "\x7b\x7bUSERNAME\x7d\x7d" ||
              containsStr (pyOrStr a.value "") "\x7b\x7bPASSWORD\x7d\x7d"
           then _mask (_inject_credentials (pyOrStr a.value "") creds)
           else "input") ++ ".png") ∈ (runStep cfg creds orc n a).2) ∧
    (∀ (cfg : Config) (creds : List (String × String)) (orc : StepOracle) (n : Nat)
        (a : Action) (sel : String), a.type = "select" → a.selector = some sel → sel ≠ "" →
      (runStep cfg creds orc n a).1 = .ok () →
      Ev.screenshot ("step_" ++ pad2 n ++ "_select.png") ∈ (runStep cfg creds orc n a).2) ∧
    (∀ (cfg : Config) (creds : List (String × String)) (orc : StepOracle) (n : Nat)
        (a : Action) (sel : String), a.type = "click" → a.selector = some sel → sel ≠ "" →
      (runStep cfg creds orc n a).1 = .ok () →
      Ev.screenshot ("step_" ++ pad2 n ++ "_click.png") ∈ (runStep cfg creds orc n a).2) ∧
    (∀ (cfg : Config) (creds : List (String × String)) (orc : StepOracle) (n : Nat)
        (a : Action) (s : String), a.type = "wait_for_selector" →
      Ev.screenshot s ∉ (runStep cfg creds orc n a).2) ∧
    (∀ (cfg : Config) (creds : List (String × String)) (orc : StepOracle) (n : Nat)
        (a : Action) (s : String), a.type = "press_key" →
      Ev.screenshot s ∉ (runStep cfg creds orc n a).2) ∧
    (∀ (cfg : Config) (creds : List (String × String)) (orc : StepOracle) (n : Nat)
        (a : Action) (s : String), a.type = "assert_title" →
      Ev.screenshot s ∉ (runStep cfg creds orc n a).2) ∧
    (∀ (cfg : Config) (creds : List (String × String)) (orc : StepOracle) (n : Nat)
        (a : Action), a.type ≠ "navigate" → a.type ≠ "wait" →
      a.type ≠ "wait_for_selector" → a.type ≠ "fill" → a.type ≠ "select" →
      a.type ≠ "press_key" → a.type ≠ "click" → a.type ≠ "assert_title" →
      runStep cfg creds orc n a = (.ok (), [])) ∧
    (∀ (cfg : Config) (creds : List (String × String)) (orcs : Nat → StepOracle) (n : Nat)
        (a : Action) (rest : List Action) (f : Fault), cfg.screenshotOnFailure = true →
      (runStep cfg creds (orcs n) n a).1 = .error f →
      runFrom cfg creds orcs n (a :: rest) =
        (.error f, (runStep cfg creds (orcs n) n a).2 ++
          [.screenshot ("step_" ++ pad2 n ++ "_FAILURE.png")])) := by
  refine ⟨?_, ?_, ?_, ?_, ?_, ?_, ?_, ?_, ?_, ?_⟩
  · intro cfg creds orc n a hty hok
    have hrs : runStep cfg creds orc n a = navigateStep cfg orc n a := by
      simp [runStep, hty]
    rw [hrs] at hok ⊢
    cases hval : a.value with
    | none =>
      simp only [navigateStep, hval] at hok
      simp at hok
    | some url =>
      simp only [navigateStep, hval] at hok ⊢
      by_cases hu : url = ""
      · rw [if_pos hu] at hok
        simp at hok
      · rw [if_neg hu] at hok ⊢
        by_cases hg : ¬ _domain_allowed cfg.parseURL cfg.allowed url = true
        · rw [if_pos hg] at hok
          simp at hok
        · rw [if_neg hg] at hok ⊢
          exact stepFinish_ok_shot _ _ _ hok
  · intro cfg creds orc n a hty
    have hrs : runStep cfg creds orc n a = waitStep n a := by
      simp [runStep, hty]
    rw [hrs, waitStep]
    simp
  · intro cfg creds orc n a sel hty hsel hne hok
    have hrs : runStep cfg creds orc n a = fillStep cfg creds orc n a := by
      simp [runStep, hty]
    rw [hrs, fillStep_eq cfg creds orc n a sel hsel hne] at hok ⊢
    exact stepFinish_ok_shot _ _ _ hok
  · intro cfg creds orc n a sel hty hsel hne hok
    have hrs : runStep cfg creds orc n a = selectStep cfg orc n a := by
      simp [runStep, hty]
    rw [hrs] at hok ⊢
    simp only [selectStep, hsel] at hok ⊢
    rw [if_neg hne] at hok ⊢
    exact stepFinish_ok_shot _ _ _ hok
  · intro cfg creds orc n a sel hty hsel hne hok
    have hrs : runStep cfg creds orc n a = clickStep cfg orc n a := by
      simp [runStep, hty]
    rw [hrs] at hok ⊢
    simp only [clickStep, hsel] at hok ⊢
    rw [if_neg hne] at hok ⊢
    exact stepFinish_ok_shot _ _ _ hok
  · intro cfg creds orc n a s hty hmem
    have hrs : runStep cfg creds orc n a = waitForSelectorStep cfg orc a := by
      simp [runStep, hty]
    rw [hrs] at hmem
    simp only [waitForSelectorStep] at hmem
    by_cases hsel : pyOrStr a.value (a.selector.getD "") = ""
    · rw [if_pos hsel] at hmem
      simp at hmem
    · rw [if_neg hsel] at hmem
      rcases List.mem_cons.mp hmem with h | h
      · simp at h
      · rcases retryRun_events _ _ _ _ _ h with ⟨r, hr⟩ | ⟨ms, hms⟩
        · simp at hr
        · simp at hms
  · intro cfg creds orc n a s hty hmem
    have hrs : runStep cfg creds orc n a = pressKeyStep orc a := by
      simp [runStep, hty]
    rw [hrs] at hmem
    cases hpr : orc.pressRes with
    | ok u =>
      cases u
      simp only [pressKeyStep, hpr] at hmem
      simp at hmem
    | error e =>
      simp only [pressKeyStep, hpr] at hmem
      simp at hmem
  · intro cfg creds orc n a s hty hmem
    have hrs : runStep cfg creds orc n a = assertTitleStep orc a := by
      simp [runStep, hty]
    rw [hrs] at hmem
    cases hval : a.value with
    | none =>
      simp only [assertTitleStep, hval] at hmem
      simp at hmem
    | some expected =>
      simp only [assertTitleStep, hval] at hmem
      by_cases hc : containsStr orc.title expected = true
      · rw [if_pos hc] at hmem
        simp at hmem
      · rw [if_neg hc] at hmem
        simp at hmem
  · intro cfg creds orc n a h1 h2 h3 h4 h5 h6 h7 h8
    simp [runStep, h1, h2, h3, h4, h5, h6, h7, h8]
  · intro cfg creds orcs n a rest f hsof herr
    simp only [runFrom, herr, hsof, if_true]

/-- Witness for C8 amended at a concrete wait step: the success screenshot
named from the step index and action type is recorded. -/
theorem C8_amended_witness :
    Ev.screenshot ("step_" ++ pad2 1 ++ "_wait.png") ∈ (runStep cfg0 [] orc0 1 waitA).2 :=
  C8_amended.2.1 cfg0 [] orc0 1 waitA rfl

end WebExec
